import Mathlib

/-!
Shallow embedding of the task-lifecycle core of the music generation
service (`app/core/inference_service.py`, `app/domain/models.py`,
`app/api/schemas.py`).

Modelling choices:
* Task ids (`uuid4` in the source) are modelled as natural numbers issued
  by a fresh counter `next_id`; freshness/uniqueness of `uuid4` becomes a
  provable property of the counter.
* The in-memory dict `_mock_tasks` is an association list from id to
  `MusicGenerationResult`.
* The background coroutine `_simulate_generation` has a single `await`
  point.  It is embedded as two atomic steps at that boundary:
  `execBeginState` (the prefix up to and including `task.status =
  PROCESSING`) and `execFinishState` (the code after the `await`, which
  transitions the record to COMPLETED or FAILED).  A pending-execution
  list records which coroutines have been spawned but not yet finished.
* The whole service is a state machine `Step`; `Reachable` are the states
  reachable from the freshly started process.
-/

namespace MusicApp

/-- Status enum of `app/domain/models.py` (`MusicGenerationStatus`). -/
inductive MusicGenerationStatus where
  | pending
  | processing
  | completed
  | failed
  | queued
deriving DecidableEq, Repr

/-- Core request of `app/domain/models.py` (`MusicGenerationRequest`), as a
plain record; pydantic field validation is the separate
`mkMusicGenerationRequest`. -/
structure MusicGenerationRequest where
  prompt : String
  duration_seconds : Int
  genre : Option String
  tempo : Option Int
deriving DecidableEq, Repr

/-- Tempo bound shared by the domain model and the HTTP schema:
`tempo: Optional[int] = Field(None, ge=40, le=200)`. -/
def tempoOK : Option Int → Bool
  | none => true
  | some x => decide (40 ≤ x) && decide (x ≤ 200)

/-- Pydantic validation of the core `MusicGenerationRequest`:
prompt `min_length=5, max_length=30`, duration `ge=5, le=180`,
tempo `ge=40, le=200` when present. -/
def coreRequestValid (p : String) (d : Int) (t : Option Int) : Bool :=
  decide (5 ≤ p.length) && decide (p.length ≤ 30) &&
    decide (5 ≤ d) && decide (d ≤ 180) && tempoOK t

/-- Constructing a core `MusicGenerationRequest` (pydantic raises a
validation error on out-of-range fields, embedded as `none`). -/
def mkMusicGenerationRequest (p : String) (d : Int) (g : Option String)
    (t : Option Int) : Option MusicGenerationRequest :=
  if coreRequestValid p d t then some ⟨p, d, g, t⟩ else none

/-- HTTP-layer request of `app/api/schemas.py` (`GenerateMusicRequest`). -/
structure GenerateMusicRequest where
  prompt : String
  duration_seconds : Int
  genre : Option String
  tempo : Option Int
deriving DecidableEq, Repr

/-- Pydantic validation of the HTTP `GenerateMusicRequest`:
prompt `min_length=10, max_length=500`, duration `ge=10, le=180`,
tempo `ge=40, le=200` when present. -/
def httpRequestValid (p : String) (d : Int) (t : Option Int) : Bool :=
  decide (10 ≤ p.length) && decide (p.length ≤ 500) &&
    decide (10 ≤ d) && decide (d ≤ 180) && tempoOK t

/-- Constructing an HTTP `GenerateMusicRequest`. -/
def mkGenerateMusicRequest (p : String) (d : Int) (g : Option String)
    (t : Option Int) : Option GenerateMusicRequest :=
  if httpRequestValid p d t then some ⟨p, d, g, t⟩ else none

/-- Core result record of `app/domain/models.py` (`MusicGenerationResult`):
the Task Record stored in `_mock_tasks`. -/
structure MusicGenerationResult where
  task_id : Nat
  status : MusicGenerationStatus
  audio_url : Option String
  error_message : Option String
  prompt_used : String
  duration_seconds_generated : Option Int
deriving DecidableEq, Repr

/-- Exceptions of `app/core/inference_service.py` raised to the caller of
`generate_music` / `get_generation_status`. -/
inductive ServiceError where
  | modelNotReadyError
  | invalidTaskError
deriving DecidableEq, Repr

/-- Phase of a spawned `_simulate_generation` coroutine: `spawned` is
before its first instruction runs, `running` is suspended at the
`await asyncio.sleep` point (the record is already PROCESSING). -/
inductive ExecPhase where
  | spawned
  | running
deriving DecidableEq, Repr

/-- One spawned background execution, as created by
`asyncio.create_task(self._simulate_generation(task_result.task_id, request))`. -/
structure PendingExec where
  task_id : Nat
  request : MusicGenerationRequest
  phase : ExecPhase
deriving DecidableEq, Repr

/-- Lookup in the task store, `self._mock_tasks.get(task_id)`. -/
def lookupTask : List (Nat × MusicGenerationResult) → Nat →
    Option MusicGenerationResult
  | [], _ => none
  | q :: l, id => if q.1 = id then some q.2 else lookupTask l id

/-- In-place mutation of the record stored under `id` (Python mutates the
dict entry through the `task` alias). -/
def updateTask (l : List (Nat × MusicGenerationResult)) (id : Nat)
    (f : MusicGenerationResult → MusicGenerationResult) :
    List (Nat × MusicGenerationResult) :=
  l.map (fun q => if q.1 = id then (q.1, f q.2) else q)

/-- Whole-service state of the `InferenceService` singleton together with
the spawned-but-unfinished background executions. -/
structure ServiceState where
  is_model_loaded : Bool
  next_id : Nat
  mock_tasks : List (Nat × MusicGenerationResult)
  pending : List PendingExec
deriving DecidableEq, Repr

/-- State of the process right after start, before `load_model` ran. -/
def initState : ServiceState :=
  { is_model_loaded := false, next_id := 0, mock_tasks := [], pending := [] }

/-- `InferenceService.load_model` (the readiness gate flips to true). -/
def load_model (s : ServiceState) : ServiceState :=
  { s with is_model_loaded := true }

/-- `InferenceService.is_model_ready`. -/
def is_model_ready (s : ServiceState) : Bool :=
  s.is_model_loaded

/-- `InferenceService.generate_music`: gate check, build the QUEUED record,
insert it, spawn the background coroutine, return the record. -/
def generate_music (s : ServiceState) (request : MusicGenerationRequest) :
    Except ServiceError (ServiceState × MusicGenerationResult) :=
  if is_model_ready s then
    let task_result : MusicGenerationResult :=
      { task_id := s.next_id
        status := MusicGenerationStatus.queued
        audio_url := none
        error_message := none
        prompt_used := request.prompt
        duration_seconds_generated := none }
    Except.ok
      ({ s with
          next_id := s.next_id + 1
          mock_tasks := (task_result.task_id, task_result) :: s.mock_tasks
          pending :=
            ⟨task_result.task_id, request, ExecPhase.spawned⟩ :: s.pending },
        task_result)
  else
    Except.error ServiceError.modelNotReadyError

/-- `InferenceService.get_generation_status`; the state is threaded through
to make it explicit that the read does not change it. -/
def get_generation_status (s : ServiceState) (task_id : Nat) :
    Except ServiceError (ServiceState × MusicGenerationResult) :=
  match lookupTask s.mock_tasks task_id with
  | none => Except.error ServiceError.invalidTaskError
  | some t => Except.ok (s, t)

/-- State after a `get_generation_status` call (error or not). -/
def queryState (s : ServiceState) (task_id : Nat) : ServiceState :=
  match get_generation_status s task_id with
  | Except.ok (s1, _) => s1
  | Except.error _ => s

/-- Substring test on char lists, used to embed Python's `in` operator. -/
def containsSub (needle : List Char) : List Char → Bool
  | [] => needle.isEmpty
  | c :: cs => List.isPrefixOf needle (c :: cs) || containsSub needle cs

/-- The failure trigger of `_simulate_generation`:
`"fail" in request.prompt.lower()` (lower-casing applied per character). -/
def promptTriggersFailure (p : String) : Bool :=
  containsSub "fail".toList (p.toList.map Char.toLower)

/-- Error message recorded on the simulated failure path:
`f"Generation failed: {str(e)}"` with
`ValueError("Simulated failure due to keyword 'fail'.")`. -/
def generationFailMsg : String :=
  "Generation failed: Simulated failure due to keyword \x27fail\x27."

/-- Audio locator assigned on completion:
`f"http://localhost:8000/static/audio/{task_id}.mp3"`. -/
def audioUrlFor (task_id : Nat) : String :=
  "http://localhost:8000/static/audio/" ++ toString task_id ++ ".mp3"

/-- Record mutation performed by `_simulate_generation` after its `await`:
the `try` body past the sleep plus the `except` handler. -/
def finishUpdate (task_id : Nat) (request : MusicGenerationRequest)
    (t : MusicGenerationResult) : MusicGenerationResult :=
  if promptTriggersFailure request.prompt then
    { t with
        status := MusicGenerationStatus.failed
        error_message := some generationFailMsg }
  else
    { t with
        audio_url := some (audioUrlFor task_id)
        duration_seconds_generated := some request.duration_seconds
        status := MusicGenerationStatus.completed }

/-- First atomic slice of `_simulate_generation` (up to the `await`):
lookup, early return when the id is absent, else status := PROCESSING and
the coroutine suspends (`running`). -/
def execBeginState (s : ServiceState) (p1 : List PendingExec)
    (pe : PendingExec) (p2 : List PendingExec) : ServiceState :=
  match lookupTask s.mock_tasks pe.task_id with
  | none => { s with pending := p1 ++ p2 }
  | some _ =>
    { s with
        mock_tasks := updateTask s.mock_tasks pe.task_id
          (fun t => { t with status := MusicGenerationStatus.processing })
        pending := p1 ++ ({ pe with phase := ExecPhase.running } :: p2) }

/-- Second atomic slice of `_simulate_generation` (after the `await`):
the record moves to its terminal status and the coroutine finishes. -/
def execFinishState (s : ServiceState) (p1 : List PendingExec)
    (pe : PendingExec) (p2 : List PendingExec) : ServiceState :=
  { s with
      mock_tasks := updateTask s.mock_tasks pe.task_id
        (finishUpdate pe.task_id pe.request)
      pending := p1 ++ p2 }

/-- One atomic step of the service: the startup hook, a submit call
(successful or rejected), a status query, or one slice of a background
execution. -/
inductive Step : ServiceState → ServiceState → Prop where
  | loadModel (s : ServiceState) : Step s (load_model s)
  | submitOk (s s1 : ServiceState) (r : MusicGenerationRequest)
      (res : MusicGenerationResult)
      (h : generate_music s r = Except.ok (s1, res)) : Step s s1
  | submitErr (s : ServiceState) (r : MusicGenerationRequest)
      (e : ServiceError)
      (h : generate_music s r = Except.error e) : Step s s
  | query (s : ServiceState) (id : Nat) : Step s (queryState s id)
  | execBegin (s : ServiceState) (p1 : List PendingExec) (pe : PendingExec)
      (p2 : List PendingExec) (h : s.pending = p1 ++ pe :: p2)
      (hp : pe.phase = ExecPhase.spawned) : Step s (execBeginState s p1 pe p2)
  | execFinish (s : ServiceState) (p1 : List PendingExec) (pe : PendingExec)
      (p2 : List PendingExec) (h : s.pending = p1 ++ pe :: p2)
      (hp : pe.phase = ExecPhase.running) : Step s (execFinishState s p1 pe p2)

/-- States reachable from process start. -/
inductive Reachable : ServiceState → Prop where
  | init : Reachable initState
  | step {s s1 : ServiceState} (hr : Reachable s) (hs : Step s s1) :
      Reachable s1

/-- Any number of steps. -/
def StepStar : ServiceState → ServiceState → Prop :=
  Relation.ReflTransGen Step


theorem lookup_update_self (l : List (Nat × MusicGenerationResult)) (id : Nat)
    (f : MusicGenerationResult → MusicGenerationResult) :
    lookupTask (updateTask l id f) id = Option.map f (lookupTask l id) := by
  induction l with
  | nil => rfl
  | cons q l ih =>
    by_cases hq : q.1 = id
    · simp [updateTask, lookupTask, hq]
    · simp [updateTask, lookupTask, hq]
      simpa [updateTask] using ih

theorem lookup_update_ne (l : List (Nat × MusicGenerationResult)) {id j : Nat}
    (f : MusicGenerationResult → MusicGenerationResult) (hne : j ≠ id) :
    lookupTask (updateTask l id f) j = lookupTask l j := by
  have hne2 : id ≠ j := fun hh => hne hh.symm
  induction l with
  | nil => rfl
  | cons q l ih =>
    by_cases hq : q.1 = id
    · have hqj : q.1 ≠ j := fun hh => hne (by rw [← hh, hq])
      simp [updateTask, lookupTask, hq, hqj, hne, hne2]
      simpa [updateTask] using ih
    · by_cases hj : q.1 = j
      · simp [updateTask, lookupTask, hq, hj, hne, hne2]
      · simp [updateTask, lookupTask, hq, hj, hne, hne2]
        simpa [updateTask] using ih

theorem ne_of_nodup_split {α β : Type} (f : α → β) {p1 p2 : List α} {pe x : α}
    (hn : ((p1 ++ pe :: p2).map f).Nodup) (hx : x ∈ p1 ++ p2) : f x ≠ f pe := by
  rw [List.map_append, List.map_cons] at hn
  rcases List.nodup_append.1 hn with ⟨h1, h2, hdisj⟩
  rcases List.mem_append.1 hx with hx1 | hx2
  · intro he
    exact hdisj (List.mem_map_of_mem f hx1) (by simp [he])
  · intro he
    rcases List.nodup_cons.1 h2 with ⟨hpe, _⟩
    exact hpe (he ▸ List.mem_map_of_mem f hx2)

theorem nodup_map_drop {α β : Type} (f : α → β) {p1 p2 : List α} (pe : α)
    (hn : ((p1 ++ pe :: p2).map f).Nodup) : ((p1 ++ p2).map f).Nodup :=
  hn.sublist (List.Sublist.map f ((List.sublist_cons_self pe p2).append_left p1))



/-- Field population discipline of a Task Record (the mutual-exclusivity
invariant of the spec). -/
def recordFieldsOK (r : MusicGenerationResult) : Prop :=
  (r.status = MusicGenerationStatus.completed →
      r.audio_url.isSome ∧ r.duration_seconds_generated.isSome ∧
        r.error_message = none) ∧
  (r.status = MusicGenerationStatus.failed →
      r.error_message.isSome ∧ r.audio_url = none ∧
        r.duration_seconds_generated = none) ∧
  (r.status ≠ MusicGenerationStatus.completed →
      r.status ≠ MusicGenerationStatus.failed →
      r.audio_url = none ∧ r.error_message = none ∧
        r.duration_seconds_generated = none)

/-- Inductive invariant of reachable service states. -/
structure Inv (s : ServiceState) : Prop where
  keys_lt : ∀ id r, lookupTask s.mock_tasks id = some r → id < s.next_id
  dom_full : ∀ id, id < s.next_id → ∃ r, lookupTask s.mock_tasks id = some r
  id_eq : ∀ id r, lookupTask s.mock_tasks id = some r → r.task_id = id
  st_ok : ∀ id r, lookupTask s.mock_tasks id = some r →
      r.status ≠ MusicGenerationStatus.pending ∧ recordFieldsOK r
  pending_ids_nodup : (s.pending.map PendingExec.task_id).Nodup
  pending_lookup : ∀ pe ∈ s.pending,
      ∃ r, lookupTask s.mock_tasks pe.task_id = some r ∧
        (pe.phase = ExecPhase.spawned →
          r.status = MusicGenerationStatus.queued) ∧
        (pe.phase = ExecPhase.running →
          r.status = MusicGenerationStatus.processing)

theorem queryState_eq_self (s : ServiceState) (id : Nat) :
    queryState s id = s := by
  unfold queryState get_generation_status
  cases lookupTask s.mock_tasks id <;> rfl

theorem store_inv_update {s : ServiceState} (hInv : Inv s) {id0 : Nat}
    {r0 : MusicGenerationResult} (hl0 : lookupTask s.mock_tasks id0 = some r0)
    (f : MusicGenerationResult → MusicGenerationResult)
    (hfid : (f r0).task_id = r0.task_id)
    (hfst : (f r0).status ≠ MusicGenerationStatus.pending)
    (hfok : recordFieldsOK (f r0)) :
    (∀ id r, lookupTask (updateTask s.mock_tasks id0 f) id = some r →
        id < s.next_id) ∧
    (∀ id, id < s.next_id →
        ∃ r, lookupTask (updateTask s.mock_tasks id0 f) id = some r) ∧
    (∀ id r, lookupTask (updateTask s.mock_tasks id0 f) id = some r →
        r.task_id = id) ∧
    (∀ id r, lookupTask (updateTask s.mock_tasks id0 f) id = some r →
        r.status ≠ MusicGenerationStatus.pending ∧ recordFieldsOK r) := by
  refine ⟨?_, ?_, ?_, ?_⟩
  · intro id rr hl
    by_cases hid : id = id0
    · subst hid
      exact hInv.keys_lt id r0 hl0
    · rw [lookup_update_ne s.mock_tasks f hid] at hl
      exact hInv.keys_lt _ _ hl
  · intro id hid
    by_cases hc : id = id0
    · subst hc
      exact ⟨f r0, by rw [lookup_update_self, hl0]; rfl⟩
    · obtain ⟨rr, hrr⟩ := hInv.dom_full id hid
      exact ⟨rr, by rw [lookup_update_ne s.mock_tasks f hc]; exact hrr⟩
  · intro id rr hl
    by_cases hid : id = id0
    · subst hid
      rw [lookup_update_self, hl0] at hl
      injection hl with hl
      rw [← hl, hfid]
      exact hInv.id_eq _ _ hl0
    · rw [lookup_update_ne s.mock_tasks f hid] at hl
      exact hInv.id_eq _ _ hl
  · intro id rr hl
    by_cases hid : id = id0
    · subst hid
      rw [lookup_update_self, hl0] at hl
      injection hl with hl
      rw [← hl]
      exact ⟨hfst, hfok⟩
    · rw [lookup_update_ne s.mock_tasks f hid] at hl
      exact hInv.st_ok _ _ hl


/-- The record built by a successful `generate_music` call. -/
def newRecord (s : ServiceState) (r : MusicGenerationRequest) :
    MusicGenerationResult :=
  ⟨s.next_id, MusicGenerationStatus.queued, none, none, r.prompt, none⟩

/-- The state after a successful `generate_music` call. -/
def submitState (s : ServiceState) (r : MusicGenerationRequest) :
    ServiceState :=
  { s with
      next_id := s.next_id + 1
      mock_tasks := (s.next_id, newRecord s r) :: s.mock_tasks
      pending := ⟨s.next_id, r, ExecPhase.spawned⟩ :: s.pending }

theorem generate_music_eq_ok {s : ServiceState} (r : MusicGenerationRequest)
    (hm : s.is_model_loaded = true) :
    generate_music s r = Except.ok (submitState s r, newRecord s r) := by
  simp [generate_music, is_model_ready, hm, submitState, newRecord]

theorem generate_music_eq_err {s : ServiceState} (r : MusicGenerationRequest)
    (hm : s.is_model_loaded = false) :
    generate_music s r = Except.error ServiceError.modelNotReadyError := by
  simp [generate_music, is_model_ready, hm]

theorem pe_mem_of_split {p1 p2 : List PendingExec} {pe : PendingExec}
    {s : ServiceState} (h : s.pending = p1 ++ pe :: p2) : pe ∈ s.pending := by
  rw [h]
  exact List.mem_append.2 (Or.inr (List.mem_cons_self pe p2))

theorem inv_submit {s : ServiceState} (r : MusicGenerationRequest)
    (hInv : Inv s) : Inv (submitState s r) := by
  refine ⟨?_, ?_, ?_, ?_, ?_, ?_⟩
  · intro id rr hl
    simp only [submitState, lookupTask] at hl ⊢
    by_cases hid : s.next_id = id
    · omega
    · rw [if_neg hid] at hl
      have := hInv.keys_lt _ _ hl
      omega
  · intro id hid
    simp only [submitState, lookupTask] at hid ⊢
    by_cases hc : s.next_id = id
    · exact ⟨newRecord s r, by rw [if_pos hc]⟩
    · have hlt : id < s.next_id := by omega
      obtain ⟨rr, hrr⟩ := hInv.dom_full id hlt
      exact ⟨rr, by rw [if_neg hc]; exact hrr⟩
  · intro id rr hl
    simp only [submitState, lookupTask] at hl
    by_cases hid : s.next_id = id
    · rw [if_pos hid] at hl
      injection hl with hl
      rw [← hl, ← hid]
      rfl
    · rw [if_neg hid] at hl
      exact hInv.id_eq _ _ hl
  · intro id rr hl
    simp only [submitState, lookupTask] at hl
    by_cases hid : s.next_id = id
    · rw [if_pos hid] at hl
      injection hl with hl
      rw [← hl]
      refine ⟨?_, ?_, ?_, ?_⟩
      · intro hh
        nomatch hh
      · intro hh
        nomatch hh
      · intro hh
        nomatch hh
      · intro _ _
        exact ⟨rfl, rfl, rfl⟩
    · rw [if_neg hid] at hl
      exact hInv.st_ok _ _ hl
  · dsimp only [submitState]
    rw [List.map_cons, List.nodup_cons]
    constructor
    · intro hmem
      rcases List.mem_map.1 hmem with ⟨pe, hpe, hid⟩
      obtain ⟨r0, hl0, -, -⟩ := hInv.pending_lookup pe hpe
      have := hInv.keys_lt _ _ hl0
      simp only [PendingExec.task_id] at hid
      omega
    · exact hInv.pending_ids_nodup
  · intro pe hpe
    simp only [submitState] at hpe
    rcases List.mem_cons.1 hpe with hpe | hpe
    · subst hpe
      refine ⟨newRecord s r, ?_, fun _ => rfl, ?_⟩
      · simp [submitState, lookupTask]
      · intro hph
        nomatch hph
    · obtain ⟨r0, hl0, hq, hr⟩ := hInv.pending_lookup pe hpe
      have hne : pe.task_id ≠ s.next_id := by
        have := hInv.keys_lt _ _ hl0
        omega
      refine ⟨r0, ?_, hq, hr⟩
      simp only [submitState, lookupTask]
      rw [if_neg (fun hh => hne hh.symm)]
      exact hl0


theorem inv_execBegin {s : ServiceState} {p1 p2 : List PendingExec}
    {pe : PendingExec} (hInv : Inv s) (h : s.pending = p1 ++ pe :: p2)
    (hp : pe.phase = ExecPhase.spawned) : Inv (execBeginState s p1 pe p2) := by
  obtain ⟨r0, hl0, hq, -⟩ := hInv.pending_lookup pe (pe_mem_of_split h)
  have hst0 : r0.status = MusicGenerationStatus.queued := hq hp
  have hnone := ((hInv.st_ok _ _ hl0).2).2.2
    (by rw [hst0]; intro hh; nomatch hh) (by rw [hst0]; intro hh; nomatch hh)
  have hX : execBeginState s p1 pe p2 =
      { s with
          mock_tasks := updateTask s.mock_tasks pe.task_id
            (fun t => { t with status := MusicGenerationStatus.processing })
          pending := p1 ++ ({ pe with phase := ExecPhase.running } :: p2) } := by
    unfold execBeginState
    rw [hl0]
  rw [hX]
  have hupd := store_inv_update hInv hl0
    (fun t => { t with status := MusicGenerationStatus.processing })
    rfl (fun hh => nomatch hh)
    (by
      refine ⟨?_, ?_, ?_⟩
      · intro hh
        nomatch hh
      · intro hh
        nomatch hh
      · intro _ _
        exact ⟨hnone.1, hnone.2.1, hnone.2.2⟩)
  refine ⟨hupd.1, hupd.2.1, hupd.2.2.1, hupd.2.2.2, ?_, ?_⟩
  · have hmap : (p1 ++ { pe with phase := ExecPhase.running } :: p2).map
        PendingExec.task_id = (p1 ++ pe :: p2).map PendingExec.task_id := by
      simp [List.map_append, List.map_cons]
    dsimp only
    rw [hmap, ← h]
    exact hInv.pending_ids_nodup
  · intro x hx
    dsimp only at hx
    have hn := hInv.pending_ids_nodup
    rw [h] at hn
    rcases List.mem_append.1 hx with hx1 | hx2
    · have hxmem : x ∈ p1 ++ p2 := List.mem_append.2 (Or.inl hx1)
      have hne : x.task_id ≠ pe.task_id :=
        ne_of_nodup_split PendingExec.task_id hn hxmem
      obtain ⟨rx, hlx, hqx, hrx⟩ := hInv.pending_lookup x
        (by rw [h]; exact List.mem_append.2 (Or.inl hx1))
      refine ⟨rx, ?_, hqx, hrx⟩
      rw [lookup_update_ne s.mock_tasks _ hne]
      exact hlx
    · rcases List.mem_cons.1 hx2 with hx2 | hx3
      · subst hx2
        refine ⟨{ r0 with status := MusicGenerationStatus.processing }, ?_, ?_, ?_⟩
        · rw [lookup_update_self, hl0]
          rfl
        · intro hph
          nomatch hph
        · intro _
          rfl
      · have hxmem : x ∈ p1 ++ p2 := List.mem_append.2 (Or.inr hx3)
        have hne : x.task_id ≠ pe.task_id :=
          ne_of_nodup_split PendingExec.task_id hn hxmem
        obtain ⟨rx, hlx, hqx, hrx⟩ := hInv.pending_lookup x
          (by rw [h]; exact List.mem_append.2 (Or.inr (List.mem_cons_of_mem pe hx3)))
        refine ⟨rx, ?_, hqx, hrx⟩
        rw [lookup_update_ne s.mock_tasks _ hne]
        exact hlx

theorem inv_execFinish {s : ServiceState} {p1 p2 : List PendingExec}
    {pe : PendingExec} (hInv : Inv s) (h : s.pending = p1 ++ pe :: p2)
    (hp : pe.phase = ExecPhase.running) : Inv (execFinishState s p1 pe p2) := by
  obtain ⟨r0, hl0, -, hr⟩ := hInv.pending_lookup pe (pe_mem_of_split h)
  have hst0 : r0.status = MusicGenerationStatus.processing := hr hp
  have hnone := ((hInv.st_ok _ _ hl0).2).2.2
    (by rw [hst0]; intro hh; nomatch hh) (by rw [hst0]; intro hh; nomatch hh)
  have hupd := store_inv_update hInv hl0 (finishUpdate pe.task_id pe.request)
    (by unfold finishUpdate; split <;> rfl)
    (by unfold finishUpdate; split
        · intro hh
          nomatch hh
        · intro hh
          nomatch hh)
    (by unfold finishUpdate
        split
        · refine ⟨?_, ?_, ?_⟩
          · intro hh
            nomatch hh
          · intro _
            exact ⟨by simp, hnone.1, hnone.2.2⟩
          · intro _ hh2
            exact absurd rfl hh2
        · refine ⟨?_, ?_, ?_⟩
          · intro _
            exact ⟨by simp, by simp, hnone.2.1⟩
          · intro hh
            nomatch hh
          · intro hh _
            exact absurd rfl hh)
  refine ⟨hupd.1, hupd.2.1, hupd.2.2.1, hupd.2.2.2, ?_, ?_⟩
  · have hn := hInv.pending_ids_nodup
    rw [h] at hn
    exact nodup_map_drop PendingExec.task_id pe hn
  · intro x hx
    dsimp only [execFinishState] at hx
    have hn := hInv.pending_ids_nodup
    rw [h] at hn
    have hne : x.task_id ≠ pe.task_id :=
      ne_of_nodup_split PendingExec.task_id hn hx
    have hxold : x ∈ s.pending := by
      rw [h]
      rcases List.mem_append.1 hx with hx1 | hx2
      · exact List.mem_append.2 (Or.inl hx1)
      · exact List.mem_append.2 (Or.inr (List.mem_cons_of_mem pe hx2))
    obtain ⟨rx, hlx, hqx, hrx⟩ := hInv.pending_lookup x hxold
    refine ⟨rx, ?_, hqx, hrx⟩
    dsimp only [execFinishState]
    rw [lookup_update_ne s.mock_tasks _ hne]
    exact hlx

theorem inv_init : Inv initState := by
  refine ⟨?_, ?_, ?_, ?_, ?_, ?_⟩
  · intro id r hl
    nomatch hl
  · intro id hid
    rw [show initState.next_id = 0 from rfl] at hid
    omega
  · intro id r hl
    nomatch hl
  · intro id r hl
    nomatch hl
  · exact List.nodup_nil
  · intro pe hpe
    nomatch hpe

theorem inv_preserved {s s1 : ServiceState} (hInv : Inv s) (hs : Step s s1) :
    Inv s1 := by
  cases hs with
  | loadModel =>
    exact ⟨hInv.keys_lt, hInv.dom_full, hInv.id_eq, hInv.st_ok,
      hInv.pending_ids_nodup, hInv.pending_lookup⟩
  | submitOk s1 r res h =>
    cases hm : s.is_model_loaded with
    | true =>
      rw [generate_music_eq_ok r hm] at h
      injection h with h
      injection h with h1 h2
      rw [← h1]
      exact inv_submit r hInv
    | false =>
      rw [generate_music_eq_err r hm] at h
      nomatch h
  | submitErr r e h => exact hInv
  | query id =>
    rw [queryState_eq_self]
    exact hInv
  | execBegin p1 pe p2 h hp => exact inv_execBegin hInv h hp
  | execFinish p1 pe p2 h hp => exact inv_execFinish hInv h hp

theorem reachable_inv {s : ServiceState} (hr : Reachable s) : Inv s := by
  induction hr with
  | init => exact inv_init
  | step hr hs ih => exact inv_preserved ih hs



theorem step_lookup_mono {s s1 : ServiceState} (hInv : Inv s) (hs : Step s s1)
    {id : Nat} {r : MusicGenerationResult}
    (hl : lookupTask s.mock_tasks id = some r) :
    ∃ r1, lookupTask s1.mock_tasks id = some r1 ∧
      (r.status = r1.status ∨
        (r.status = MusicGenerationStatus.queued ∧
          r1.status = MusicGenerationStatus.processing) ∨
        (r.status = MusicGenerationStatus.processing ∧
          (r1.status = MusicGenerationStatus.completed ∨
            r1.status = MusicGenerationStatus.failed))) := by
  cases hs with
  | loadModel => exact ⟨r, hl, Or.inl rfl⟩
  | submitOk s1 req res h =>
    cases hm : s.is_model_loaded with
    | true =>
      rw [generate_music_eq_ok req hm] at h
      injection h with h
      injection h with h1 h2
      rw [← h1]
      have hid : id ≠ s.next_id := by
        have := hInv.keys_lt _ _ hl
        omega
      refine ⟨r, ?_, Or.inl rfl⟩
      simp only [submitState, lookupTask]
      rw [if_neg (fun hh => hid hh.symm)]
      exact hl
    | false =>
      rw [generate_music_eq_err req hm] at h
      nomatch h
  | submitErr req e h => exact ⟨r, hl, Or.inl rfl⟩
  | query qid =>
    rw [queryState_eq_self]
    exact ⟨r, hl, Or.inl rfl⟩
  | execBegin p1 pe p2 h hp =>
    obtain ⟨r0, hl0, hq, -⟩ := hInv.pending_lookup pe (pe_mem_of_split h)
    have hst0 : r0.status = MusicGenerationStatus.queued := hq hp
    have hX : execBeginState s p1 pe p2 =
        { s with
            mock_tasks := updateTask s.mock_tasks pe.task_id
              (fun t => { t with status := MusicGenerationStatus.processing })
            pending := p1 ++ ({ pe with phase := ExecPhase.running } :: p2) } := by
      unfold execBeginState
      rw [hl0]
    rw [hX]
    by_cases hid : id = pe.task_id
    · subst hid
      have hrr : r0 = r := by
        rw [hl0] at hl
        injection hl
      subst hrr
      refine ⟨{ r0 with status := MusicGenerationStatus.processing }, ?_, ?_⟩
      · rw [lookup_update_self, hl0]
        rfl
      · exact Or.inr (Or.inl ⟨hst0, rfl⟩)
    · refine ⟨r, ?_, Or.inl rfl⟩
      rw [lookup_update_ne s.mock_tasks _ hid]
      exact hl
  | execFinish p1 pe p2 h hp =>
    obtain ⟨r0, hl0, -, hr⟩ := hInv.pending_lookup pe (pe_mem_of_split h)
    have hst0 : r0.status = MusicGenerationStatus.processing := hr hp
    by_cases hid : id = pe.task_id
    · subst hid
      have hrr : r0 = r := by
        rw [hl0] at hl
        injection hl
      subst hrr
      refine ⟨finishUpdate pe.task_id pe.request r0, ?_, ?_⟩
      · dsimp only [execFinishState]
        rw [lookup_update_self, hl0]
        rfl
      · refine Or.inr (Or.inr ⟨hst0, ?_⟩)
        unfold finishUpdate
        split
        · exact Or.inr rfl
        · exact Or.inl rfl
    · refine ⟨r, ?_, Or.inl rfl⟩
      dsimp only [execFinishState]
      rw [lookup_update_ne s.mock_tasks _ hid]
      exact hl

theorem reachable_of_stepStar {s s1 : ServiceState} (hR : Reachable s)
    (hs : StepStar s s1) : Reachable s1 := by
  induction hs with
  | refl => exact hR
  | tail hab hbc ih => exact Reachable.step ih hbc

theorem lookup_preserved_stepStar {s s1 : ServiceState} (hR : Reachable s)
    (hs : StepStar s s1) {id : Nat} {r : MusicGenerationResult}
    (hl : lookupTask s.mock_tasks id = some r) :
    ∃ r1, lookupTask s1.mock_tasks id = some r1 := by
  induction hs with
  | refl => exact ⟨r, hl⟩
  | tail hab hbc ih =>
    obtain ⟨rb, hrb⟩ := ih
    obtain ⟨rc, hrc, -⟩ :=
      step_lookup_mono (reachable_inv (reachable_of_stepStar hR hab)) hbc hrb
    exact ⟨rc, hrc⟩

theorem getStatus_error_iff_lookup_none (s : ServiceState) (id : Nat) :
    get_generation_status s id = Except.error ServiceError.invalidTaskError ↔
      lookupTask s.mock_tasks id = none := by
  unfold get_generation_status
  cases h : lookupTask s.mock_tasks id <;> simp



/-- Demonstration request of the spec's success scenario. -/
def calmRequest : MusicGenerationRequest :=
  ⟨"A calm piano piece", 30, none, none⟩

/-- Demonstration request of the spec's failure scenario (short enough for
the core prompt bound; it contains the trigger word). -/
def failRequest : MusicGenerationRequest :=
  ⟨"please fail this", 10, none, none⟩

/-- Record created by submitting `calmRequest` to the fresh ready service. -/
def calmRec : MusicGenerationResult :=
  ⟨0, MusicGenerationStatus.queued, none, none, "A calm piano piece", none⟩

/-- Service state after `load_model`. -/
def readyState : ServiceState :=
  load_model initState

/-- State after submitting `calmRequest` to `readyState`. -/
def calmState1 : ServiceState :=
  { is_model_loaded := true
    next_id := 1
    mock_tasks := [(0, calmRec)]
    pending := [⟨0, calmRequest, ExecPhase.spawned⟩] }

/-- State after the background execution of task 0 has reached its await
point. -/
def calmState2 : ServiceState :=
  execBeginState calmState1 [] ⟨0, calmRequest, ExecPhase.spawned⟩ []

/-- Record created by submitting `failRequest` to the fresh ready service. -/
def failRec : MusicGenerationResult :=
  ⟨0, MusicGenerationStatus.queued, none, none, "please fail this", none⟩

/-- State after submitting `failRequest` to `readyState`. -/
def failState1 : ServiceState :=
  { is_model_loaded := true
    next_id := 1
    mock_tasks := [(0, failRec)]
    pending := [⟨0, failRequest, ExecPhase.spawned⟩] }

/-- State after the failing task's execution has reached its await point. -/
def failState2 : ServiceState :=
  execBeginState failState1 [] ⟨0, failRequest, ExecPhase.spawned⟩ []

theorem reach_ready : Reachable readyState :=
  Reachable.step Reachable.init (Step.loadModel initState)

theorem reach_calm1 : Reachable calmState1 :=
  Reachable.step reach_ready
    (Step.submitOk readyState calmState1 calmRequest calmRec rfl)

theorem reach_calm2 : Reachable calmState2 :=
  Reachable.step reach_calm1
    (Step.execBegin calmState1 [] ⟨0, calmRequest, ExecPhase.spawned⟩ [] rfl rfl)

theorem reach_fail1 : Reachable failState1 :=
  Reachable.step reach_ready
    (Step.submitOk readyState failState1 failRequest failRec rfl)

theorem reach_fail2 : Reachable failState2 :=
  Reachable.step reach_fail1
    (Step.execBegin failState1 [] ⟨0, failRequest, ExecPhase.spawned⟩ [] rfl rfl)



/-- C3: for every reachable state and every step of the system (submit,
background-execution slice, status query), each stored record's status
either stays put or advances along QUEUED → PROCESSING → {COMPLETED |
FAILED}; in particular a COMPLETED or FAILED record never changes status
again. -/
theorem status_transitions_monotone {s s1 : ServiceState} (hR : Reachable s)
    (hs : Step s s1) {id : Nat} {r : MusicGenerationResult}
    (hl : lookupTask s.mock_tasks id = some r) :
    ∃ r1, lookupTask s1.mock_tasks id = some r1 ∧
      (r.status = r1.status ∨
        (r.status = MusicGenerationStatus.queued ∧
          r1.status = MusicGenerationStatus.processing) ∨
        (r.status = MusicGenerationStatus.processing ∧
          (r1.status = MusicGenerationStatus.completed ∨
            r1.status = MusicGenerationStatus.failed))) ∧
      ((r.status = MusicGenerationStatus.completed ∨
          r.status = MusicGenerationStatus.failed) →
        r1.status = r.status) := by
  obtain ⟨r1, hl1, hdisj⟩ := step_lookup_mono (reachable_inv hR) hs hl
  refine ⟨r1, hl1, hdisj, ?_⟩
  intro hterm
  rcases hdisj with hh | ⟨hq, _⟩ | ⟨hproc, _⟩
  · exact hh.symm
  · rcases hterm with ht | ht <;> rw [ht] at hq <;> nomatch hq
  · rcases hterm with ht | ht <;> rw [ht] at hproc <;> nomatch hproc

/-- Witness for C3 at a concrete step: the background executor picking up
the freshly queued demo task. -/
theorem status_transitions_monotone_witness :
    ∃ r1, lookupTask calmState2.mock_tasks 0 = some r1 ∧
      (calmRec.status = r1.status ∨
        (calmRec.status = MusicGenerationStatus.queued ∧
          r1.status = MusicGenerationStatus.processing) ∨
        (calmRec.status = MusicGenerationStatus.processing ∧
          (r1.status = MusicGenerationStatus.completed ∨
            r1.status = MusicGenerationStatus.failed))) ∧
      ((calmRec.status = MusicGenerationStatus.completed ∨
          calmRec.status = MusicGenerationStatus.failed) →
        r1.status = calmRec.status) :=
  status_transitions_monotone reach_calm1
    (Step.execBegin calmState1 [] ⟨0, calmRequest, ExecPhase.spawned⟩ [] rfl rfl)
    rfl

/-- C4: in every reachable state, a COMPLETED record has audioUrl and
generatedDurationSeconds populated and no errorMessage; a FAILED record
has an errorMessage and neither audioUrl nor generatedDurationSeconds;
in any other status all three are absent. -/
theorem record_fields_exclusive {s : ServiceState} (hR : Reachable s)
    {id : Nat} {r : MusicGenerationResult}
    (hl : lookupTask s.mock_tasks id = some r) :
    (r.status = MusicGenerationStatus.completed →
      r.audio_url.isSome ∧ r.duration_seconds_generated.isSome ∧
        r.error_message = none) ∧
    (r.status = MusicGenerationStatus.failed →
      r.error_message.isSome ∧ r.audio_url = none ∧
        r.duration_seconds_generated = none) ∧
    (r.status ≠ MusicGenerationStatus.completed →
      r.status ≠ MusicGenerationStatus.failed →
      r.audio_url = none ∧ r.error_message = none ∧
        r.duration_seconds_generated = none) :=
  ((reachable_inv hR).st_ok id r hl).2

/-- Witness for C4 at the queued demo record. -/
theorem record_fields_exclusive_witness :
    (calmRec.status = MusicGenerationStatus.completed →
      calmRec.audio_url.isSome ∧ calmRec.duration_seconds_generated.isSome ∧
        calmRec.error_message = none) ∧
    (calmRec.status = MusicGenerationStatus.failed →
      calmRec.error_message.isSome ∧ calmRec.audio_url = none ∧
        calmRec.duration_seconds_generated = none) ∧
    (calmRec.status ≠ MusicGenerationStatus.completed →
      calmRec.status ≠ MusicGenerationStatus.failed →
      calmRec.audio_url = none ∧ calmRec.error_message = none ∧
        calmRec.duration_seconds_generated = none) :=
  @record_fields_exclusive calmState1 reach_calm1 0 calmRec rfl

/-- C5: a submit call made while the readiness gate is false fails with
`ModelNotReadyError` and produces no successful state; the exception is
raised before any record is created, so the service state is untouched. -/
theorem submit_not_ready {s : ServiceState} (r : MusicGenerationRequest)
    (hm : s.is_model_loaded = false) :
    generate_music s r = Except.error ServiceError.modelNotReadyError ∧
    ∀ s1 res, generate_music s r ≠ Except.ok (s1, res) := by
  refine ⟨generate_music_eq_err r hm, ?_⟩
  intro s1 res hok
  rw [generate_music_eq_err r hm] at hok
  nomatch hok

/-- Witness for C5: submitting to the freshly started, not-yet-ready
service. -/
theorem submit_not_ready_witness :
    generate_music initState calmRequest =
      Except.error ServiceError.modelNotReadyError :=
  (submit_not_ready calmRequest rfl).1

/-- C8: `get_generation_status` is a pure read: a successful call returns
the state unchanged, an immediate second call returns the identical
snapshot, and the after-call state always equals the before-call state. -/
theorem getStatus_pure_read {s s1 : ServiceState} {id : Nat}
    {r : MusicGenerationResult}
    (h : get_generation_status s id = Except.ok (s1, r)) :
    s1 = s ∧ get_generation_status s1 id = Except.ok (s1, r) ∧
      queryState s id = s := by
  unfold get_generation_status at h
  cases hc : lookupTask s.mock_tasks id with
  | none =>
    rw [hc] at h
    nomatch h
  | some t =>
    rw [hc] at h
    injection h with h
    injection h with h1 h2
    subst h1
    refine ⟨rfl, ?_, queryState_eq_self s id⟩
    unfold get_generation_status
    rw [hc, h2]

/-- Witness for C8 at the demo task. -/
theorem getStatus_pure_read_witness :
    calmState1 = calmState1 ∧
    get_generation_status calmState1 0 = Except.ok (calmState1, calmRec) ∧
      queryState calmState1 0 = calmState1 :=
  getStatus_pure_read rfl



/-- C2: the background execution of a task ends in exactly one of two
outcomes: if the prompt contains the trigger word the record becomes
FAILED with a non-empty error message and no audioUrl; otherwise it
becomes COMPLETED with an audioUrl containing the task id and a generated
duration equal to the requested duration. -/
theorem background_outcome {s : ServiceState} {p1 p2 : List PendingExec}
    {pe : PendingExec} (hR : Reachable s) (h : s.pending = p1 ++ pe :: p2)
    (hp : pe.phase = ExecPhase.running) :
    ∃ r1, lookupTask (execFinishState s p1 pe p2).mock_tasks pe.task_id =
        some r1 ∧
      (promptTriggersFailure pe.request.prompt = true →
        r1.status = MusicGenerationStatus.failed ∧
        r1.error_message = some generationFailMsg ∧ generationFailMsg ≠ "" ∧
        r1.audio_url = none) ∧
      (promptTriggersFailure pe.request.prompt = false →
        r1.status = MusicGenerationStatus.completed ∧
        (∃ a b, r1.audio_url = some (a ++ toString pe.task_id ++ b)) ∧
        r1.duration_seconds_generated = some pe.request.duration_seconds) := by
  have hInv := reachable_inv hR
  obtain ⟨r0, hl0, -, hr⟩ := hInv.pending_lookup pe (pe_mem_of_split h)
  have hst0 : r0.status = MusicGenerationStatus.processing := hr hp
  have hnone := ((hInv.st_ok _ _ hl0).2).2.2
    (by rw [hst0]; intro hh; nomatch hh) (by rw [hst0]; intro hh; nomatch hh)
  refine ⟨finishUpdate pe.task_id pe.request r0, ?_, ?_, ?_⟩
  · dsimp only [execFinishState]
    rw [lookup_update_self, hl0]
    rfl
  · intro htrig
    unfold finishUpdate
    rw [if_pos htrig]
    exact ⟨rfl, rfl, by decide, hnone.1⟩
  · intro htrig
    unfold finishUpdate
    rw [if_neg (show ¬ promptTriggersFailure pe.request.prompt = true by
      rw [htrig]; intro hh; nomatch hh)]
    exact ⟨rfl, ⟨"http://localhost:8000/static/audio/", ".mp3", rfl⟩, rfl⟩

/-- Witness for C2: finishing the demo task (non-failing prompt). -/
theorem background_outcome_witness :
    ∃ r1, lookupTask
        (execFinishState calmState2 [] ⟨0, calmRequest, ExecPhase.running⟩
          []).mock_tasks 0 = some r1 ∧
      (promptTriggersFailure calmRequest.prompt = true →
        r1.status = MusicGenerationStatus.failed ∧
        r1.error_message = some generationFailMsg ∧ generationFailMsg ≠ "" ∧
        r1.audio_url = none) ∧
      (promptTriggersFailure calmRequest.prompt = false →
        r1.status = MusicGenerationStatus.completed ∧
        (∃ a b, r1.audio_url = some (a ++ toString 0 ++ b)) ∧
        r1.duration_seconds_generated = some calmRequest.duration_seconds) :=
  background_outcome reach_calm2 rfl rfl

/-- C7: an error raised during a task's background execution is contained:
the task's record becomes FAILED with the error message, while the
readiness gate, the id counter, every other task's record and the other
pending executions are untouched (and the error value itself is recorded,
not re-raised: `generate_music` / `get_generation_status` can only raise
`ModelNotReadyError` / `InvalidTaskError`). -/
theorem failure_contained {s : ServiceState} {p1 p2 : List PendingExec}
    {pe : PendingExec} (hR : Reachable s) (h : s.pending = p1 ++ pe :: p2)
    (hp : pe.phase = ExecPhase.running)
    (hfail : promptTriggersFailure pe.request.prompt = true) :
    (∃ r1, lookupTask (execFinishState s p1 pe p2).mock_tasks pe.task_id =
        some r1 ∧
      r1.status = MusicGenerationStatus.failed ∧
      r1.error_message = some generationFailMsg) ∧
    (execFinishState s p1 pe p2).is_model_loaded = s.is_model_loaded ∧
    (execFinishState s p1 pe p2).next_id = s.next_id ∧
    (∀ j, j ≠ pe.task_id →
      lookupTask (execFinishState s p1 pe p2).mock_tasks j =
        lookupTask s.mock_tasks j) ∧
    (execFinishState s p1 pe p2).pending = p1 ++ p2 := by
  have hInv := reachable_inv hR
  obtain ⟨r0, hl0, -, hr⟩ := hInv.pending_lookup pe (pe_mem_of_split h)
  refine ⟨⟨finishUpdate pe.task_id pe.request r0, ?_, ?_, ?_⟩, rfl, rfl, ?_, rfl⟩
  · dsimp only [execFinishState]
    rw [lookup_update_self, hl0]
    rfl
  · unfold finishUpdate
    rw [if_pos hfail]
  · unfold finishUpdate
    rw [if_pos hfail]
  · intro j hj
    dsimp only [execFinishState]
    exact lookup_update_ne s.mock_tasks _ hj

/-- Witness for C7: the failing demo task. -/
theorem failure_contained_witness :
    (∃ r1, lookupTask
        (execFinishState failState2 [] ⟨0, failRequest, ExecPhase.running⟩
          []).mock_tasks 0 = some r1 ∧
      r1.status = MusicGenerationStatus.failed ∧
      r1.error_message = some generationFailMsg) ∧
    (execFinishState failState2 [] ⟨0, failRequest, ExecPhase.running⟩
      []).is_model_loaded = failState2.is_model_loaded ∧
    (execFinishState failState2 [] ⟨0, failRequest, ExecPhase.running⟩
      []).next_id = failState2.next_id ∧
    (∀ j, j ≠ 0 →
      lookupTask (execFinishState failState2 []
        ⟨0, failRequest, ExecPhase.running⟩ []).mock_tasks j =
        lookupTask failState2.mock_tasks j) ∧
    (execFinishState failState2 [] ⟨0, failRequest, ExecPhase.running⟩
      []).pending = [] ++ [] :=
  failure_contained reach_fail2 rfl rfl (by decide)



/-- C6: in a reachable state, `get_generation_status` fails with
`InvalidTaskError` exactly on the ids the fresh-id counter has never
issued; and once `generate_music` has returned a task id, every later
state reached by any steps still resolves that id to a record whose
status is one of the four issued statuses (never PENDING, never
not-found). -/
theorem taskNotFound_iff_never_issued {s : ServiceState} (hR : Reachable s) :
    (∀ id, get_generation_status s id =
        Except.error ServiceError.invalidTaskError ↔ s.next_id ≤ id) ∧
    (∀ req s1 res s2, generate_music s req = Except.ok (s1, res) →
      StepStar s1 s2 →
      ∃ r2, get_generation_status s2 res.task_id = Except.ok (s2, r2) ∧
        r2.status ≠ MusicGenerationStatus.pending) := by
  have hInv := reachable_inv hR
  constructor
  · intro id
    rw [getStatus_error_iff_lookup_none]
    constructor
    · intro hnone
      by_contra hlt
      push_neg at hlt
      obtain ⟨rr, hrr⟩ := hInv.dom_full id hlt
      rw [hrr] at hnone
      nomatch hnone
    · intro hge
      cases hcase : lookupTask s.mock_tasks id with
      | none => rfl
      | some rr =>
        have := hInv.keys_lt _ _ hcase
        omega
  · intro req s1 res s2 hok hstar
    cases hm : s.is_model_loaded with
    | false =>
      rw [generate_music_eq_err req hm] at hok
      nomatch hok
    | true =>
      have hok' := hok
      rw [generate_music_eq_ok req hm] at hok'
      injection hok' with hok'
      injection hok' with h1 h2
      have hR1 : Reachable s1 :=
        Reachable.step hR (Step.submitOk s s1 req res hok)
      have hl1 : lookupTask s1.mock_tasks res.task_id = some res := by
        rw [← h1, ← h2]
        simp [submitState, newRecord, lookupTask]
      obtain ⟨r2, hr2⟩ := lookup_preserved_stepStar hR1 hstar hl1
      refine ⟨r2, ?_, ?_⟩
      · unfold get_generation_status
        rw [hr2]
      · exact ((reachable_inv (reachable_of_stepStar hR1 hstar)).st_ok
          _ _ hr2).1

/-- Witness for C6 at the empty ready service: id 0 is not yet issued. -/
theorem taskNotFound_iff_never_issued_witness :
    get_generation_status readyState 0 =
        Except.error ServiceError.invalidTaskError ↔ readyState.next_id ≤ 0 :=
  (taskNotFound_iff_never_issued reach_ready).1 0

/-- C1 counterexample: the record built by a submit call does not carry the
supplied duration — its only duration field,
`duration_seconds_generated`, is absent right after submission (the
requested duration lives in the request passed to the executor, not in
the stored Task Record). -/
theorem submit_record_lacks_duration :
    ∃ s1 res, generate_music readyState calmRequest = Except.ok (s1, res) ∧
      res.status = MusicGenerationStatus.queued ∧
      res.prompt_used = calmRequest.prompt ∧
      res.duration_seconds_generated ≠ some calmRequest.duration_seconds :=
  ⟨calmState1, calmRec, rfl, rfl, rfl, by decide⟩

/-- C1 (amended): while the gate is true, `generate_music` issues the fresh
counter value as the task id (an id no stored record has), stores a record
with status QUEUED, the supplied prompt and no result fields, spawns the
executor without running it, and returns that id and record synchronously;
the supplied duration is not stored in the record. -/
theorem submit_builds_queued_record {s s1 : ServiceState}
    {r : MusicGenerationRequest} {res : MusicGenerationResult}
    (hR : Reachable s) (h : generate_music s r = Except.ok (s1, res)) :
    s.is_model_loaded = true ∧
    res.task_id = s.next_id ∧
    lookupTask s.mock_tasks res.task_id = none ∧
    res.status = MusicGenerationStatus.queued ∧
    res.prompt_used = r.prompt ∧
    res.audio_url = none ∧ res.error_message = none ∧
    res.duration_seconds_generated = none ∧
    lookupTask s1.mock_tasks res.task_id = some res ∧
    s1.pending = ⟨res.task_id, r, ExecPhase.spawned⟩ :: s.pending ∧
    s1.next_id = s.next_id + 1 := by
  cases hm : s.is_model_loaded with
  | false =>
    rw [generate_music_eq_err r hm] at h
    nomatch h
  | true =>
    rw [generate_music_eq_ok r hm] at h
    injection h with h
    injection h with h1 h2
    rw [← h1, ← h2]
    refine ⟨rfl, rfl, ?_, rfl, rfl, rfl, rfl, rfl, ?_, rfl, rfl⟩
    · cases hcase : lookupTask s.mock_tasks s.next_id with
      | none => exact hcase
      | some rr =>
        have := (reachable_inv hR).keys_lt _ _ hcase
        omega
    · simp [submitState, newRecord, lookupTask]

/-- Witness for C1 (amended) at the fresh ready service. -/
theorem submit_builds_queued_record_witness :
    readyState.is_model_loaded = true ∧
    calmRec.task_id = readyState.next_id ∧
    lookupTask readyState.mock_tasks calmRec.task_id = none ∧
    calmRec.status = MusicGenerationStatus.queued ∧
    calmRec.prompt_used = calmRequest.prompt ∧
    calmRec.audio_url = none ∧ calmRec.error_message = none ∧
    calmRec.duration_seconds_generated = none ∧
    lookupTask calmState1.mock_tasks calmRec.task_id = some calmRec ∧
    calmState1.pending =
      ⟨calmRec.task_id, calmRequest, ExecPhase.spawned⟩ :: readyState.pending ∧
    calmState1.next_id = readyState.next_id + 1 :=
  submit_builds_queued_record reach_ready rfl



/-- A sequence of submit calls (each `generate_music` call body runs
without an interleaving point on the event loop, so any concurrent batch
of submits executes as some sequence of whole calls). -/
def submitMany : ServiceState → List MusicGenerationRequest →
    ServiceState × List Nat
  | s, [] => (s, [])
  | s, r :: rs =>
    match generate_music s r with
    | Except.error _ => submitMany s rs
    | Except.ok (s1, res) =>
      let pr := submitMany s1 rs
      (pr.1, res.task_id :: pr.2)

theorem submitMany_cons {s : ServiceState} (r : MusicGenerationRequest)
    (rs : List MusicGenerationRequest) (hm : s.is_model_loaded = true) :
    submitMany s (r :: rs) =
      ((submitMany (submitState s r) rs).1,
        s.next_id :: (submitMany (submitState s r) rs).2) := by
  simp [submitMany, generate_music_eq_ok r hm, newRecord]

theorem submitMany_ids_ge {rs : List MusicGenerationRequest}
    {s : ServiceState} (hm : s.is_model_loaded = true) :
    ∀ id ∈ (submitMany s rs).2, s.next_id ≤ id := by
  induction rs generalizing s with
  | nil =>
    intro id hid
    nomatch hid
  | cons r rs ih =>
    intro id hid
    rw [submitMany_cons r rs hm] at hid
    rcases List.mem_cons.1 hid with hid | hid
    · omega
    · have hm1 : (submitState s r).is_model_loaded = true := hm
      have := ih hm1 id hid
      have hn1 : (submitState s r).next_id = s.next_id + 1 := rfl
      omega

theorem submitMany_lookup_preserved {rs : List MusicGenerationRequest}
    {s : ServiceState} (hm : s.is_model_loaded = true) {j : Nat}
    {rec : MusicGenerationResult} (hj : j < s.next_id)
    (hl : lookupTask s.mock_tasks j = some rec) :
    lookupTask (submitMany s rs).1.mock_tasks j = some rec := by
  induction rs generalizing s with
  | nil => exact hl
  | cons r rs ih =>
    rw [submitMany_cons r rs hm]
    have hm1 : (submitState s r).is_model_loaded = true := hm
    have hj1 : j < (submitState s r).next_id := by
      have hn1 : (submitState s r).next_id = s.next_id + 1 := rfl
      omega
    have hl1 : lookupTask (submitState s r).mock_tasks j = some rec := by
      have hne : s.next_id ≠ j := by omega
      simp only [submitState, lookupTask]
      rw [if_neg hne]
      exact hl
    exact ih hm1 hj1 hl1

/-- C9: submitting any batch of requests while the gate is true yields
pairwise-distinct task ids, one per request, and afterwards every id
resolves through `get_generation_status` to its own record carrying that
request's prompt — no record is lost or overwritten. -/
theorem concurrent_submissions_distinct {s : ServiceState}
    (rs : List MusicGenerationRequest) (hm : s.is_model_loaded = true) :
    (submitMany s rs).2.Nodup ∧
    (submitMany s rs).2.length = rs.length ∧
    List.Forall₂ (fun id req => ∃ rec,
        get_generation_status (submitMany s rs).1 id =
          Except.ok ((submitMany s rs).1, rec) ∧
        rec.prompt_used = req.prompt ∧ rec.task_id = id)
      (submitMany s rs).2 rs := by
  induction rs generalizing s with
  | nil => exact ⟨List.nodup_nil, rfl, List.Forall₂.nil⟩
  | cons r rs ih =>
    have hm1 : (submitState s r).is_model_loaded = true := hm
    obtain ⟨ihn, ihl, ihf⟩ := ih hm1
    rw [submitMany_cons r rs hm]
    refine ⟨?_, ?_, ?_⟩
    · rw [List.nodup_cons]
      refine ⟨?_, ihn⟩
      intro hmem
      have := submitMany_ids_ge hm1 s.next_id hmem
      have hn1 : (submitState s r).next_id = s.next_id + 1 := rfl
      omega
    · simp [ihl]
    · refine List.Forall₂.cons ?_ ihf
      have hlook : lookupTask (submitMany (submitState s r) rs).1.mock_tasks
          s.next_id = some (newRecord s r) := by
        apply submitMany_lookup_preserved hm1 ?_ ?_
        · have hn1 : (submitState s r).next_id = s.next_id + 1 := rfl
          omega
        · simp [submitState, newRecord, lookupTask]
      refine ⟨newRecord s r, ?_, rfl, rfl⟩
      unfold get_generation_status
      rw [hlook]

/-- Witness for C9: three demo submissions to the fresh ready service. -/
theorem concurrent_submissions_distinct_witness :
    (submitMany readyState [calmRequest, failRequest, calmRequest]).2.Nodup ∧
    (submitMany readyState
        [calmRequest, failRequest, calmRequest]).2.length =
      [calmRequest, failRequest, calmRequest].length ∧
    List.Forall₂ (fun id req => ∃ rec,
        get_generation_status
            (submitMany readyState [calmRequest, failRequest, calmRequest]).1
            id =
          Except.ok
            ((submitMany readyState
                [calmRequest, failRequest, calmRequest]).1, rec) ∧
        rec.prompt_used = req.prompt ∧ rec.task_id = id)
      (submitMany readyState [calmRequest, failRequest, calmRequest]).2
      [calmRequest, failRequest, calmRequest] :=
  concurrent_submissions_distinct [calmRequest, failRequest, calmRequest] rfl

/-- C10: the core request type accepts exactly the prompts of length 5–30,
durations 5–180 and tempos 40–200; and some request accepted by the
HTTP-layer schema (prompt length 10–500) fails core construction because
its prompt is longer than 30 characters. -/
theorem core_validation_bounds :
    (∀ p d g t, (mkMusicGenerationRequest p d g t).isSome ↔
      (5 ≤ p.length ∧ p.length ≤ 30 ∧ 5 ≤ d ∧ d ≤ 180 ∧
        ∀ x ∈ t, 40 ≤ x ∧ x ≤ 200)) ∧
    (∃ p d g t, (mkGenerateMusicRequest p d g t).isSome = true ∧
      mkMusicGenerationRequest p d g t = none ∧ 30 < p.length) := by
  constructor
  · intro p d g t
    unfold mkMusicGenerationRequest coreRequestValid tempoOK
    cases t with
    | none => simp [and_assoc]
    | some x =>
      simp [and_assoc]
  · exact ⟨"An extended orchestral piece with violins", 30, none, none,
      by decide, by decide, by decide⟩

/-- Witness for C10: the demo prompt is accepted by the core bounds. -/
theorem core_validation_bounds_witness :
    (mkMusicGenerationRequest "A calm piano piece" 30 none none).isSome :=
  (core_validation_bounds.1 "A calm piano piece" 30 none none).2
    ⟨by decide, by decide, by decide, by decide, by intro x hx; nomatch hx⟩


end MusicApp
